import Mathlib

namespace RideShare

/-- A two-dimensional grid location, embedding the Location class of
src/location.py. -/
structure Location where
  row : Int
  column : Int
deriving DecidableEq, Repr

/-- Manhattan distance between two locations, embedding manhattan_distance
of src/location.py. -/
def manhattan_distance (origin destination : Location) : Int :=
  |origin.row - destination.row| + |origin.column - destination.column|

/-- Rider status values of src/rider.py (WAITING, CANCELLED, SATISFIED). -/
inductive RiderStatus where
  | waiting
  | cancelled
  | satisfied
deriving DecidableEq, Repr

/-- A rider, embedding the Rider class of src/rider.py.  Python compares
riders by id alone; the embedding carries the whole record and compares ids
explicitly at each place the source relies on Rider equality. -/
structure Rider where
  id : String
  patience : Int
  origin : Location
  destination : Location
  status : RiderStatus
deriving DecidableEq, Repr

/-- A driver, embedding the Driver class of src/driver.py.  Python compares
drivers by id alone; the embedding compares ids explicitly where the source
relies on Driver equality. -/
structure Driver where
  id : String
  location : Location
  speed : Int
  destination : Option Location
  is_idle : Bool
deriving DecidableEq, Repr

/-- Python's built-in round (round half to even) evaluated on an exact
rational, the reference meaning of `round(distance / self.speed)` in
src/driver.py. -/
def pyRound (q : ℚ) : Int :=
  let f := ⌊q⌋
  if q - f < 1/2 then f
  else if 1/2 < q - f then f + 1
  else if f % 2 = 0 then f else f + 1

/-- Round half to even of the quotient n / s, in integer arithmetic.  For
0 ≤ n and 0 < s — the only inputs the program produces, distances being
nonnegative and the data model requiring a positive speed — this equals
pyRound of the exact rational n / s, proved in round_half_even_div_eq;
Python raises on s = 0. -/
def round_half_even_div (n s : Int) : Int :=
  let f := n / s
  let r2 := 2 * (n - f * s)
  if r2 < s then f
  else if s < r2 then f + 1
  else if f % 2 = 0 then f else f + 1

/-- Embeds Driver.get_travel_time of src/driver.py: the Manhattan distance
from the driver's current location divided by its speed, rounded. -/
def get_travel_time (d : Driver) (destination : Location) : Int :=
  round_half_even_div (manhattan_distance d.location destination) d.speed

/-- Embeds Driver.start_drive of src/driver.py: clears idleness, sets the
destination, and returns the travel time computed from the unchanged current
location. -/
def start_drive (d : Driver) (location : Location) : Int × Driver :=
  let d1 : Driver := { d with is_idle := false, destination := some location }
  (get_travel_time d1 location, d1)

/-- Embeds Driver.end_drive of src/driver.py.  The source documents the
precondition that self.destination is not None; a call without it would set
location to None, so the embedding returns none there. -/
def end_drive (d : Driver) : Option Driver :=
  match d.destination with
  | none => none
  | some dest => some { d with is_idle := true, location := dest, destination := none }

/-- Embeds Driver.start_ride of src/driver.py: relocates the driver to the
rider's origin, heads to the rider's destination, and returns the travel time
computed from the new location. -/
def start_ride (d : Driver) (r : Rider) : Int × Driver :=
  let d1 : Driver := { d with is_idle := false, location := r.origin,
                              destination := some r.destination }
  (get_travel_time d1 r.destination, d1)

/-- Embeds Driver.end_ride of src/driver.py, whose mechanics are identical to
end_drive. -/
def end_ride (d : Driver) : Option Driver :=
  match d.destination with
  | none => none
  | some dest => some { d with is_idle := true, location := dest, destination := none }

/-- Dispatcher state of src/dispatcher.py: the rider waiting list and the
driver roster. -/
structure Dispatcher where
  waiting_list : List Rider
  driver_list : List Driver
deriving DecidableEq, Repr

/-- The first loop of Dispatcher.request_driver in src/dispatcher.py: the
found-counter makes it keep exactly the first idle driver of the roster. -/
def first_available (ds : List Driver) : Option Driver :=
  ds.find? (fun d => d.is_idle)

/-- The second loop of Dispatcher.request_driver in src/dispatcher.py:
starting from the first available driver, replace the candidate only on a
strictly smaller travel time, so earlier roster entries win exact ties. -/
def closest_loop (ds : List Driver) (c0 : Driver) (origin : Location) : Driver :=
  ds.foldl (fun closest d =>
    if d.is_idle = true ∧ get_travel_time d origin < get_travel_time closest origin
    then d else closest) c0

/-- Embeds Dispatcher.request_driver of src/dispatcher.py.  State updates are
returned in the second component instead of mutated in place. -/
def request_driver (disp : Dispatcher) (r : Rider) : Option Driver × Dispatcher :=
  match first_available disp.driver_list with
  | none => (none, { disp with waiting_list := disp.waiting_list ++ [r] })
  | some fa => (some (closest_loop disp.driver_list fa r.origin), disp)

/-- Embeds Dispatcher.request_rider of src/dispatcher.py: register the driver
when no roster entry shares its id (Python membership uses id equality), then
pop the front of the waiting list if any. -/
def request_rider (disp : Dispatcher) (dr : Driver) : Option Rider × Dispatcher :=
  let dl := if disp.driver_list.any (fun x => x.id == dr.id) then disp.driver_list
            else disp.driver_list ++ [dr]
  match disp.waiting_list with
  | [] => (none, { waiting_list := [], driver_list := dl })
  | r :: rest => (some r, { waiting_list := rest, driver_list := dl })

/-- Embeds Dispatcher.cancel_ride of src/dispatcher.py: unconditionally set
the rider's status to CANCELLED and remove the first waiting-list entry with
the rider's id, if one is present (Python list.remove under id equality).
The mutated rider is returned in the second component. -/
def cancel_ride (disp : Dispatcher) (r : Rider) : Dispatcher × Rider :=
  ({ disp with waiting_list := disp.waiting_list.eraseP (fun x => x.id == r.id) },
   { r with status := RiderStatus.cancelled })

/-- Activity kinds of src/monitor.py (REQUEST, CANCEL, PICKUP, DROPOFF). -/
inductive ActKind where
  | request
  | cancel
  | pickup
  | dropoff
deriving DecidableEq, Repr

/-- Activity categories of src/monitor.py (RIDER, DRIVER). -/
inductive Category where
  | riderCat
  | driverCat
deriving DecidableEq, Repr

/-- An activity record, embedding the Activity class of src/monitor.py. -/
structure Activity where
  time : Int
  description : ActKind
  id : String
  location : Location
deriving DecidableEq, Repr

/-- The Monitor state of src/monitor.py.  The Python dict from identifier to
activity list preserves insertion order, so each category is embedded as an
association list ordered by first notification. -/
structure Monitor where
  rider_acts : List (String × List Activity)
  driver_acts : List (String × List Activity)
deriving DecidableEq, Repr

/-- One category of Monitor.notify in src/monitor.py: create the actor's
entry at the end on first notification, otherwise append to its list. -/
def notify_log (l : List (String × List Activity)) (a : Activity) :
    List (String × List Activity) :=
  if l.any (fun p => p.1 == a.id) then
    l.map (fun p => if p.1 == a.id then (p.1, p.2 ++ [a]) else p)
  else l ++ [(a.id, [a])]

/-- Embeds Monitor.notify of src/monitor.py. -/
def Monitor.notify (m : Monitor) (t : Int) (cat : Category) (k : ActKind)
    (ident : String) (loc : Location) : Monitor :=
  match cat with
  | Category.riderCat =>
      { m with rider_acts := notify_log m.rider_acts ⟨t, k, ident, loc⟩ }
  | Category.driverCat =>
      { m with driver_acts := notify_log m.driver_acts ⟨t, k, ident, loc⟩ }

/-- The five event kinds of src/event.py as a tagged variant.  In Python each
event holds references to shared mutable actor objects; the embedding stores
the actor values the references hold at the end of the step that created the
event. -/
inductive SimEvent where
  | riderRequest (timestamp : Int) (rider : Rider)
  | driverRequest (timestamp : Int) (driver : Driver)
  | cancellation (timestamp : Int) (rider : Rider)
  | pickup (timestamp : Int) (rider : Rider) (driver : Driver)
  | dropoff (timestamp : Int) (rider : Rider) (driver : Driver)
deriving DecidableEq, Repr

/-- The timestamp attribute shared by all events in src/event.py; the Event
comparison methods order events by this field alone. -/
def SimEvent.timestamp : SimEvent → Int
  | SimEvent.riderRequest t _ => t
  | SimEvent.driverRequest t _ => t
  | SimEvent.cancellation t _ => t
  | SimEvent.pickup t _ _ => t
  | SimEvent.dropoff t _ _ => t

/-- Result of one event's do method: the spawned events plus the updated
actor, dispatcher and monitor state. -/
structure StepResult where
  events : List SimEvent
  rider : Rider
  driver : Option Driver
  dispatcher : Dispatcher
  monitor : Monitor
deriving DecidableEq, Repr

/-- Embeds RiderRequest.do of src/event.py: notify RIDER REQUEST, ask the
dispatcher for a driver; on a match the driver starts driving to the rider's
origin and a Pickup is spawned, and a Cancellation at timestamp + patience is
always spawned last.  The roster entry sharing the matched driver's id is
updated to the post-start_drive value, rendering Python's aliasing of the
roster entry and the matched object. -/
def riderRequestDo (t : Int) (r : Rider) (disp : Dispatcher) (mon : Monitor) :
    StepResult :=
  let mon1 := mon.notify t Category.riderCat ActKind.request r.id r.origin
  match request_driver disp r with
  | (none, disp1) =>
      { events := [SimEvent.cancellation (t + r.patience) r], rider := r,
        driver := none, dispatcher := disp1, monitor := mon1 }
  | (some c, disp1) =>
      let p := start_drive c r.origin
      let roster := disp1.driver_list.map (fun x => if x.id == c.id then p.2 else x)
      let disp2 := { disp1 with driver_list := roster }
      { events := [SimEvent.pickup (t + p.1) r p.2,
                   SimEvent.cancellation (t + r.patience) r],
        rider := r, driver := some p.2, dispatcher := disp2, monitor := mon1 }

/-- Embeds Cancellation.do of src/event.py: only a WAITING rider is set to
CANCELLED, removed from the waiting list through cancel_ride, and reported to
the monitor; otherwise nothing happens.  No events are ever spawned. -/
def cancellationDo (t : Int) (r : Rider) (disp : Dispatcher) (mon : Monitor) :
    StepResult :=
  if r.status = RiderStatus.waiting then
    let r1 : Rider := { r with status := RiderStatus.cancelled }
    let pr := cancel_ride disp r1
    let mon1 := mon.notify t Category.riderCat ActKind.cancel r1.id r1.origin
    { events := [], rider := pr.2, driver := none, dispatcher := pr.1,
      monitor := mon1 }
  else
    { events := [], rider := r, driver := none, dispatcher := disp,
      monitor := mon }

/-- Embeds Pickup.do of src/event.py: the driver first ends its drive (none
when the documented destination precondition is violated), DRIVER PICKUP is
always notified at the arrival location; a WAITING rider is picked up,
becomes SATISFIED and a Dropoff is spawned, while a CANCELLED rider causes a
DriverRequest at the same timestamp; a SATISFIED rider spawns nothing. -/
def pickupDo (t : Int) (r : Rider) (d : Driver) (disp : Dispatcher)
    (mon : Monitor) : Option StepResult :=
  match end_drive d with
  | none => none
  | some d1 =>
    let mon1 := mon.notify t Category.driverCat ActKind.pickup d1.id d1.location
    if r.status = RiderStatus.waiting then
      let mon2 := mon1.notify t Category.riderCat ActKind.pickup r.id r.origin
      let p := start_ride d1 r
      let r1 : Rider := { r with status := RiderStatus.satisfied }
      some { events := [SimEvent.dropoff (t + p.1) r1 p.2], rider := r1,
             driver := some p.2, dispatcher := disp, monitor := mon2 }
    else if r.status = RiderStatus.cancelled then
      some { events := [SimEvent.driverRequest t d1], rider := r,
             driver := some d1, dispatcher := disp, monitor := mon1 }
    else
      some { events := [], rider := r, driver := some d1, dispatcher := disp,
             monitor := mon1 }

/-- Modelled from the spec: the event PriorityQueue of container.py, which
src/simulation.py and src/a1_my_tests.py import but which is absent from
src/.  Spec 4.1 and the data model require the queue ordered by timestamp
and FIFO-stable on ties, so add places a new event after every queued event
whose timestamp is less than or equal to its own and before the first
strictly later one. -/
def pq_add (e : SimEvent) : List SimEvent → List SimEvent
  | [] => [e]
  | x :: xs =>
      if e.timestamp < x.timestamp then e :: x :: xs else x :: pq_add e xs

/-- Modelled from the spec: remove() of container.py's PriorityQueue extracts
the front event; on an empty queue it is a precondition violation, embedded
as none. -/
def pq_remove (q : List SimEvent) : Option (SimEvent × List SimEvent) :=
  match q with
  | [] => none
  | e :: rest => some (e, rest)

/-- A queue built by a sequence of add calls starting from the empty queue. -/
def pq_from_list (es : List SimEvent) : List SimEvent :=
  es.foldl (fun q e => pq_add e q) []

/-- The queue representation invariant: items sorted by timestamp. -/
def PQSorted (q : List SimEvent) : Prop :=
  List.Sorted (fun a b => a.timestamp ≤ b.timestamp) q

/-- One dispatcher call, for reasoning about call sequences over the three
public operations of src/dispatcher.py. -/
inductive DOp where
  | reqDriver (r : Rider)
  | reqRider (d : Driver)
  | cancel (r : Rider)
deriving DecidableEq, Repr

/-- The dispatcher-state effect of one call. -/
def applyOp (disp : Dispatcher) : DOp → Dispatcher
  | DOp.reqDriver r => (request_driver disp r).2
  | DOp.reqRider d => (request_rider disp d).2
  | DOp.cancel r => (cancel_ride disp r).1

/-- Run a sequence of dispatcher calls. -/
def runOps (disp : Dispatcher) (ops : List DOp) : Dispatcher :=
  ops.foldl applyOp disp

/-- The guard under which the waiting-list uniqueness invariant is
preserved: request_driver is not called for a rider whose id already sits in
the waiting list.  The simulation satisfies it because each rider issues a
single RiderRequest. -/
def opGuard (disp : Dispatcher) : DOp → Prop
  | DOp.reqDriver r => ∀ x ∈ disp.waiting_list, x.id ≠ r.id
  | DOp.reqRider _ => True
  | DOp.cancel _ => True

/-- Every call of the sequence satisfies the guard in the state where it
runs. -/
def opsGuarded : Dispatcher → List DOp → Prop
  | _, [] => True
  | disp, op :: rest => opGuard disp op ∧ opsGuarded (applyOp disp op) rest

/-- Each rider id occurs at most once in the waiting list. -/
def WLUnique (disp : Dispatcher) : Prop :=
  disp.waiting_list.Pairwise (fun a b => a.id ≠ b.id)

/-- Loop state of Monitor._average_ride_distance in src/monitor.py: the last
pickup location seen so far, the accumulated distance, and the ride count. -/
structure RideAcc where
  pickupLoc : Option Location
  total : Int
  rides : Nat
deriving DecidableEq, Repr

/-- One iteration of the inner loop of Monitor._average_ride_distance in
src/monitor.py: a PICKUP overwrites the remembered pickup location, a DROPOFF
adds the distance from the remembered location and counts a ride; Python
raises when no pickup has ever been seen at a DROPOFF, embedded as none. -/
def ride_step (acc : RideAcc) (a : Activity) : Option RideAcc :=
  match a.description with
  | ActKind.pickup => some { acc with pickupLoc := some a.location }
  | ActKind.dropoff =>
      match acc.pickupLoc with
      | none => none
      | some p => some { acc with total := acc.total + manhattan_distance p a.location,
                                  rides := acc.rides + 1 }
  | _ => some acc

/-- Embeds Monitor._average_ride_distance of src/monitor.py: the two nested
loops over the per-driver activity logs, threading one shared pickup
location, distance total and ride count; 0 when no ride was counted. -/
def average_ride_distance (logs : List (String × List Activity)) : Option ℚ :=
  match logs.foldlM (fun acc p => p.2.foldlM ride_step acc)
      ({ pickupLoc := none, total := 0, rides := 0 } : RideAcc) with
  | none => none
  | some acc =>
      if acc.rides = 0 then some 0 else some ((acc.total : ℚ) / (acc.rides : ℚ))

/-- The same loop run over one flat activity list. -/
def flat_ride_result (acts : List Activity) : Option RideAcc :=
  acts.foldlM ride_step { pickupLoc := none, total := 0, rides := 0 }

/-- Modelled from the claim's words, for comparison with the source: within a
single driver's chronological log, each DROPOFF is matched to the most recent
preceding PICKUP of that same driver; a DROPOFF with no such pickup forms no
pair.  Returns the distances of the completed pairs. -/
def claim_driver_pairs (acts : List Activity) : List Int :=
  (acts.foldl (fun st a =>
      match a.description with
      | ActKind.pickup => (some a.location, st.2)
      | ActKind.dropoff =>
          match st.1 with
          | none => st
          | some p => (st.1, st.2 ++ [manhattan_distance p a.location])
      | _ => st) ((none : Option Location), ([] : List Int))).2

/-- Modelled from the claim's words: the mean over all completed
pickup-to-dropoff pairs across all drivers, matched per driver, of the
Manhattan distance of the pair; 0 when there are no completed rides. -/
def claim_ride_distance (logs : List (String × List Activity)) : ℚ :=
  let ps := (logs.map (fun p => claim_driver_pairs p.2)).flatten
  if ps.length = 0 then 0 else (ps.sum : ℚ) / (ps.length : ℚ)

/-- Repeated Dispatcher.request_rider calls, collecting the returned riders
in order. -/
def drain_outputs (disp : Dispatcher) (dr : Driver) : Nat → List (Option Rider)
  | 0 => []
  | n + 1 =>
      let p := request_rider disp dr
      p.1 :: drain_outputs p.2 dr n

/-- Concrete locations used by the witnesses, mirroring the doctests. -/
def locO : Location := ⟨0, 0⟩

def loc11 : Location := ⟨1, 1⟩

def loc22 : Location := ⟨2, 2⟩

def loc33 : Location := ⟨3, 3⟩

/-- The driver of the Driver doctests: Bob at (1,1) with speed 1. -/
def bobD : Driver := ⟨"Bob", loc11, 1, none, true⟩

/-- The rider of the doctests: bobby with patience 100, origin (1,1),
destination (2,2). -/
def bobbyR : Rider := ⟨"bobby", 100, loc11, loc22, RiderStatus.waiting⟩

/-- A dispatcher holding the single idle driver Bob. -/
def dispB : Dispatcher := ⟨[], [bobD]⟩

/-- The empty dispatcher. -/
def dispEmpty : Dispatcher := ⟨[], []⟩

/-- The empty monitor. -/
def monEmpty : Monitor := ⟨[], []⟩

/-- Two equidistant idle drivers, registered bob2 first, as in the
request_driver doctest where bob2 wins the tie. -/
def dispTie : Dispatcher :=
  ⟨[], [⟨"bob2", locO, 1, none, true⟩, ⟨"bob", locO, 1, none, true⟩]⟩

/-- A cancelled rider, for the Pickup edge case. -/
def cancelledR : Rider := ⟨"bobby", 100, loc11, loc22, RiderStatus.cancelled⟩

/-- A satisfied rider, for the Cancellation no-op case. -/
def satisfiedR : Rider := ⟨"bobby", 100, loc11, loc22, RiderStatus.satisfied⟩

/-- A driver en route to (1,1), as after being matched. -/
def drivingD : Driver := ⟨"Bob", locO, 1, some loc11, false⟩

/-- The two equal-timestamp driver requests of
test_pq_priority_with_same_timestamp in src/a1_my_tests.py. -/
def evA : SimEvent := SimEvent.driverRequest 0 ⟨"TJ", ⟨1, 2⟩, 10, none, true⟩

def evB : SimEvent := SimEvent.driverRequest 0 ⟨"AJ", ⟨1, 3⟩, 10, none, true⟩

/-- A waiting rider used for the duplicate-entry counterexample. -/
def dupR : Rider := ⟨"dup", 5, locO, loc11, RiderStatus.waiting⟩

/-- An activity log in which driver A has a pickup and driver B only a
dropoff, exposing the shared pickup location of
Monitor._average_ride_distance. -/
def logsCE : List (String × List Activity) :=
  [("A", [⟨0, ActKind.pickup, "A", locO⟩]),
   ("B", [⟨1, ActKind.dropoff, "B", ⟨5, 5⟩⟩])]

lemma manhattan_nonneg (a b : Location) : 0 ≤ manhattan_distance a b := by
  unfold manhattan_distance
  positivity

/-- The integer round-half-even of n / s agrees with Python's round applied
to the exact rational n / s, for the nonnegative distances and positive
speeds the program produces. -/
lemma round_half_even_div_eq (n s : Int) (hs : 0 < s) :
    round_half_even_div n s = pyRound ((n : ℚ) / (s : ℚ)) := by
  obtain ⟨d, rfl⟩ : ∃ d : ℕ, s = (d : Int) := ⟨s.toNat, (Int.toNat_of_nonneg hs.le).symm⟩
  have hsQ : (0 : ℚ) < (d : ℚ) := by exact_mod_cast hs
  have hsQne : (d : ℚ) ≠ 0 := ne_of_gt hsQ
  have hfl : ⌊(n : ℚ) / (d : ℚ)⌋ = n / (d : Int) := Rat.floor_intCast_div_natCast n d
  unfold round_half_even_div pyRound
  push_cast
  rw [hfl]
  set f : Int := n / (d : Int) with hf
  set r : Int := n - f * (d : Int) with hr
  have hfrac : (n : ℚ) / (d : ℚ) - (f : ℚ) = (r : ℚ) / (d : ℚ) := by
    rw [hr]
    push_cast
    field_simp
    ring
  have hlt : ((n : ℚ) / (d : ℚ) - (f : ℚ) < 1 / 2) ↔ 2 * r < (d : Int) := by
    rw [hfrac, div_lt_div_iff₀ hsQ (by norm_num : (0 : ℚ) < 2)]
    rw [show ((r : ℚ) * 2 = ((2 * r : Int) : ℚ)) from by push_cast; ring,
        show ((1 : ℚ) * d = (((d : Int) : Int) : ℚ)) from by push_cast; ring]
    exact Int.cast_lt
  have hgt : (1 / 2 < (n : ℚ) / (d : ℚ) - (f : ℚ)) ↔ (d : Int) < 2 * r := by
    rw [hfrac, div_lt_div_iff₀ (by norm_num : (0 : ℚ) < 2) hsQ]
    rw [show ((r : ℚ) * 2 = ((2 * r : Int) : ℚ)) from by push_cast; ring,
        show ((1 : ℚ) * d = (((d : Int) : Int) : ℚ)) from by push_cast; ring]
    exact Int.cast_lt
  simp only [hlt, hgt]

/-- C9: for a driver with positive speed, start_drive returns the rounded
travel time round(manhattan_distance / speed), clears idleness and sets the
destination while leaving the location unchanged; end_drive then moves the
driver to the target, clears the destination and restores idleness; in
particular the driver at (1,1) with speed 1 gets 4 from start_drive to (3,3)
and ends there idle. -/
theorem start_end_drive_spec (d : Driver) (loc : Location) (hs : 0 < d.speed) :
    (start_drive d loc).1
        = pyRound ((manhattan_distance d.location loc : ℚ) / (d.speed : ℚ))
    ∧ (start_drive d loc).2.is_idle = false
    ∧ (start_drive d loc).2.destination = some loc
    ∧ (start_drive d loc).2.location = d.location
    ∧ end_drive (start_drive d loc).2
        = some { d with is_idle := true, location := loc, destination := none }
    ∧ (start_drive bobD loc33).1 = 4
    ∧ end_drive (start_drive bobD loc33).2 = some ⟨"Bob", loc33, 1, none, true⟩ := by
  refine ⟨?_, rfl, rfl, rfl, rfl, by decide, by decide⟩
  exact round_half_even_div_eq _ _ hs

/-- Witness for C9 at the concrete driver of the spec's round-trip test. -/
theorem start_end_drive_spec_witness :
    (start_drive bobD loc33).1
        = pyRound ((manhattan_distance bobD.location loc33 : ℚ) / (bobD.speed : ℚ))
    ∧ (start_drive bobD loc33).2.is_idle = false
    ∧ (start_drive bobD loc33).2.destination = some loc33
    ∧ (start_drive bobD loc33).2.location = bobD.location
    ∧ end_drive (start_drive bobD loc33).2
        = some { bobD with is_idle := true, location := loc33, destination := none }
    ∧ (start_drive bobD loc33).1 = 4
    ∧ end_drive (start_drive bobD loc33).2 = some ⟨"Bob", loc33, 1, none, true⟩ :=
  start_end_drive_spec bobD loc33 (by decide)

/-- C10: Dispatcher.cancel_ride unconditionally sets the rider's status to
CANCELLED — with no guard on the current status, so even a SATISFIED rider
leaves its terminal state — and removes the first waiting-list entry sharing
the rider's id when present, leaving the roster alone. -/
theorem cancel_ride_unconditional (disp : Dispatcher) (r : Rider) :
    (cancel_ride disp r).2 = { r with status := RiderStatus.cancelled }
    ∧ ((cancel_ride disp r).2).status = RiderStatus.cancelled
    ∧ (cancel_ride disp { r with status := RiderStatus.satisfied }).2.status
        = RiderStatus.cancelled
    ∧ ((cancel_ride disp r).1).waiting_list
        = disp.waiting_list.eraseP (fun x => x.id == r.id)
    ∧ ((cancel_ride disp r).1).driver_list = disp.driver_list :=
  ⟨rfl, rfl, rfl, rfl, rfl⟩

/-- C6: executing a Cancellation event for a SATISFIED or already CANCELLED
rider changes nothing at all — rider status, waiting list, roster and monitor
log are untouched and no notification fires; only a WAITING rider is set to
CANCELLED, erased from the waiting list, and reported as a RIDER CANCEL
activity. -/
theorem cancellation_spec (t : Int) (r : Rider) (disp : Dispatcher) (mon : Monitor) :
    (r.status = RiderStatus.satisfied ∨ r.status = RiderStatus.cancelled →
      cancellationDo t r disp mon =
        { events := [], rider := r, driver := none, dispatcher := disp,
          monitor := mon })
    ∧ (r.status = RiderStatus.waiting →
        (cancellationDo t r disp mon).rider.status = RiderStatus.cancelled
        ∧ (cancellationDo t r disp mon).monitor
            = mon.notify t Category.riderCat ActKind.cancel r.id r.origin
        ∧ (cancellationDo t r disp mon).dispatcher.waiting_list
            = disp.waiting_list.eraseP (fun x => x.id == r.id)
        ∧ (cancellationDo t r disp mon).dispatcher.driver_list = disp.driver_list
        ∧ (cancellationDo t r disp mon).events = []) := by
  constructor
  · intro h
    have hne : r.status ≠ RiderStatus.waiting := by
      rcases h with h | h <;> rw [h] <;> intro hc <;> cases hc
    simp [cancellationDo, hne]
  · intro h
    simp [cancellationDo, h, cancel_ride]

/-- Witness for C6 at a concrete satisfied rider. -/
theorem cancellation_spec_witness :
    cancellationDo 7 satisfiedR dispEmpty monEmpty =
      { events := [], rider := satisfiedR, driver := none,
        dispatcher := dispEmpty, monitor := monEmpty } :=
  (cancellation_spec 7 satisfiedR dispEmpty monEmpty).1 (Or.inl rfl)

/-- C3: when Pickup executes for a CANCELLED rider, the driver still ends the
drive — its location becomes the former destination and it is idle again —
DRIVER PICKUP is notified but the rider log is untouched (no RIDER PICKUP),
no Dropoff is scheduled, and exactly one event is spawned: a DriverRequest
for that driver at the Pickup's own timestamp. -/
theorem pickup_cancelled_spec (t : Int) (r : Rider) (d : Driver)
    (disp : Dispatcher) (mon : Monitor) (dest : Location)
    (hdest : d.destination = some dest) (hst : r.status = RiderStatus.cancelled) :
    pickupDo t r d disp mon =
      some { events := [SimEvent.driverRequest t
               { d with is_idle := true, location := dest, destination := none }],
             rider := r,
             driver := some { d with is_idle := true, location := dest,
                                     destination := none },
             dispatcher := disp,
             monitor := mon.notify t Category.driverCat ActKind.pickup d.id dest }
    ∧ ({ d with is_idle := true, location := dest,
                destination := none } : Driver).is_idle = true
    ∧ (mon.notify t Category.driverCat ActKind.pickup d.id dest).rider_acts
        = mon.rider_acts := by
  refine ⟨?_, rfl, rfl⟩
  simp [pickupDo, end_drive, hdest, hst]

/-- Witness for C3 at a concrete cancelled rider and driving driver. -/
theorem pickup_cancelled_spec_witness :
    pickupDo 2 cancelledR drivingD dispEmpty monEmpty =
      some { events := [SimEvent.driverRequest 2
               { drivingD with is_idle := true, location := loc11,
                               destination := none }],
             rider := cancelledR,
             driver := some { drivingD with is_idle := true, location := loc11,
                                            destination := none },
             dispatcher := dispEmpty,
             monitor := monEmpty.notify 2 Category.driverCat ActKind.pickup
                          drivingD.id loc11 }
    ∧ ({ drivingD with is_idle := true, location := loc11,
                       destination := none } : Driver).is_idle = true
    ∧ (monEmpty.notify 2 Category.driverCat ActKind.pickup
         drivingD.id loc11).rider_acts = monEmpty.rider_acts :=
  pickup_cancelled_spec 2 cancelledR drivingD dispEmpty monEmpty loc11 rfl rfl

lemma request_rider_fst (disp : Dispatcher) (dr : Driver) :
    (request_rider disp dr).1 = disp.waiting_list.head? := by
  unfold request_rider
  cases hw : disp.waiting_list <;> simp

lemma request_rider_wl (disp : Dispatcher) (dr : Driver) :
    (request_rider disp dr).2.waiting_list = disp.waiting_list.tail := by
  unfold request_rider
  cases hw : disp.waiting_list <;> simp

lemma request_rider_dl (disp : Dispatcher) (dr : Driver) :
    (request_rider disp dr).2.driver_list =
      if disp.driver_list.any (fun x => x.id == dr.id) then disp.driver_list
      else disp.driver_list ++ [dr] := by
  unfold request_rider
  cases hw : disp.waiting_list <;> simp

lemma drain_outputs_eq (dr : Driver) :
    ∀ (wl : List Rider) (disp : Dispatcher), disp.waiting_list = wl →
      drain_outputs disp dr wl.length = wl.map some := by
  intro wl
  induction wl with
  | nil => intro disp h; simp [drain_outputs]
  | cons r rest ih =>
      intro disp h
      have h1 : (request_rider disp dr).1 = some r := by
        rw [request_rider_fst, h]; rfl
      have h2 : (request_rider disp dr).2.waiting_list = rest := by
        rw [request_rider_wl, h]; rfl
      simp only [List.length_cons, drain_outputs, h1, List.map_cons]
      exact congrArg _ (ih _ h2)

/-- C4: request_rider registers the driver only when no roster entry shares
its id (two calls with the same id leave exactly one entry), and returns and
removes the front of the FIFO waiting list, or none when it is empty; called
once per waiting rider it returns them in their original order. -/
theorem request_rider_correct (disp : Dispatcher) (dr dr2 : Driver) :
    (request_rider disp dr).1 = disp.waiting_list.head?
    ∧ (request_rider disp dr).2.waiting_list = disp.waiting_list.tail
    ∧ ((∃ x ∈ disp.driver_list, x.id = dr.id) →
        (request_rider disp dr).2.driver_list = disp.driver_list)
    ∧ ((∀ x ∈ disp.driver_list, x.id ≠ dr.id) →
        (request_rider disp dr).2.driver_list = disp.driver_list ++ [dr])
    ∧ (disp.driver_list.countP (fun x => x.id == dr.id) = 0 → dr2.id = dr.id →
        (request_rider (request_rider disp dr).2 dr2).2.driver_list.countP
          (fun x => x.id == dr.id) = 1)
    ∧ drain_outputs disp dr disp.waiting_list.length
        = disp.waiting_list.map some := by
  refine ⟨request_rider_fst disp dr, request_rider_wl disp dr, ?_, ?_, ?_, ?_⟩
  · intro ⟨x, hx, hid⟩
    have hany : disp.driver_list.any (fun x => x.id == dr.id) = true := by
      rw [List.any_eq_true]
      exact ⟨x, hx, by simpa using hid⟩
    rw [request_rider_dl, if_pos hany]
  · intro h
    have hany : disp.driver_list.any (fun x => x.id == dr.id) = false := by
      rw [List.any_eq_false]
      intro x hx
      simpa using h x hx
    rw [request_rider_dl, hany]
    simp
  · intro hc hid
    have hall : ∀ x ∈ disp.driver_list, x.id ≠ dr.id := by
      intro x hx
      have := List.countP_eq_zero.mp hc x hx
      simpa using this
    have hany : disp.driver_list.any (fun x => x.id == dr.id) = false := by
      rw [List.any_eq_false]
      intro x hx
      simpa using hall x hx
    have h1 : (request_rider disp dr).2.driver_list = disp.driver_list ++ [dr] := by
      rw [request_rider_dl, hany]; simp
    have hany2 : ((request_rider disp dr).2.driver_list.any
        (fun x => x.id == dr2.id)) = true := by
      rw [h1, List.any_eq_true]
      exact ⟨dr, by simp, by simp [hid]⟩
    rw [request_rider_dl, hany2, if_pos rfl, h1, List.countP_append]
    rw [List.countP_eq_zero.mpr (fun x hx => by simpa using hall x hx)]
    simp
  · exact drain_outputs_eq dr disp.waiting_list disp rfl

/-- Witness for C4: registering Bob twice on the empty dispatcher leaves one
roster entry with his id. -/
theorem request_rider_correct_witness :
    (request_rider (request_rider dispEmpty bobD).2 bobD).2.driver_list.countP
      (fun x => x.id == bobD.id) = 1 :=
  (request_rider_correct dispEmpty bobD bobD).2.2.2.2.1 (by decide) rfl

/-- C5: a RiderRequest executed at time t always spawns a Cancellation for
the rider at t + patience; when the dispatcher matches an idle driver, that
driver starts driving to the rider's origin (idle cleared, destination set)
and a Pickup for this rider and driver at t + travel time is spawned first;
nothing else is spawned. -/
theorem rider_request_spec (t : Int) (r : Rider) (disp : Dispatcher)
    (mon : Monitor) (hs : ∀ d ∈ disp.driver_list, 0 < d.speed) :
    ((request_driver disp r).1 = none →
      (riderRequestDo t r disp mon).events
        = [SimEvent.cancellation (t + r.patience) r])
    ∧ (∀ c, (request_driver disp r).1 = some c →
        (riderRequestDo t r disp mon).events
          = [SimEvent.pickup (t + get_travel_time c r.origin) r
               (start_drive c r.origin).2,
             SimEvent.cancellation (t + r.patience) r]
        ∧ (start_drive c r.origin).2.is_idle = false
        ∧ (start_drive c r.origin).2.destination = some r.origin
        ∧ (start_drive c r.origin).1 = get_travel_time c r.origin) := by
  rcases hq : request_driver disp r with ⟨o, disp1⟩
  constructor
  · intro h
    have ho : o = none := h
    subst ho
    simp [riderRequestDo, hq]
  · intro c hc
    have ho : o = some c := hc
    subst ho
    refine ⟨?_, rfl, rfl, rfl⟩
    simp [riderRequestDo, hq]
    rfl

/-- Witness for C5 on a dispatcher holding the single idle driver Bob. -/
theorem rider_request_spec_witness :
    (riderRequestDo 0 bobbyR dispB monEmpty).events
      = [SimEvent.pickup (0 + get_travel_time bobD bobbyR.origin) bobbyR
           (start_drive bobD bobbyR.origin).2,
         SimEvent.cancellation (0 + bobbyR.patience) bobbyR]
    ∧ (start_drive bobD bobbyR.origin).2.is_idle = false
    ∧ (start_drive bobD bobbyR.origin).2.destination = some bobbyR.origin
    ∧ (start_drive bobD bobbyR.origin).1 = get_travel_time bobD bobbyR.origin :=
  (rider_request_spec 0 bobbyR dispB monEmpty (by decide)).2 bobD (by decide)

lemma pq_add_mem (e a : SimEvent) (q : List SimEvent) :
    a ∈ pq_add e q ↔ a = e ∨ a ∈ q := by
  induction q with
  | nil => simp [pq_add]
  | cons x xs ih =>
      by_cases h : e.timestamp < x.timestamp
      · simp only [pq_add, if_pos h, List.mem_cons]
      · simp only [pq_add, if_neg h, List.mem_cons, ih]
        tauto

lemma pq_add_sorted (e : SimEvent) (q : List SimEvent) (h : PQSorted q) :
    PQSorted (pq_add e q) := by
  induction q with
  | nil => simp [pq_add, PQSorted]
  | cons x xs ih =>
      rw [PQSorted, List.sorted_cons] at h
      by_cases hx : e.timestamp < x.timestamp
      · rw [PQSorted]
        simp only [pq_add, if_pos hx, List.sorted_cons]
        refine ⟨?_, h.1, h.2⟩
        intro b hb
        rcases List.mem_cons.mp hb with rfl | hb
        · exact hx.le
        · exact hx.le.trans (h.1 b hb)
      · rw [PQSorted]
        simp only [pq_add, if_neg hx, List.sorted_cons]
        refine ⟨?_, ih h.2⟩
        intro b hb
        rcases (pq_add_mem e b xs).mp hb with rfl | hb
        · exact le_of_not_lt hx
        · exact h.1 b hb

lemma pq_from_list_sorted (es : List SimEvent) : PQSorted (pq_from_list es) := by
  have key : ∀ (l : List SimEvent) (q : List SimEvent), PQSorted q →
      PQSorted (l.foldl (fun acc e => pq_add e acc) q) := by
    intro l
    induction l with
    | nil => intro q h; simpa using h
    | cons e rest ih =>
        intro q h
        simpa using ih (pq_add e q) (pq_add_sorted e q h)
  simpa [pq_from_list] using key es [] (by simp [PQSorted])

lemma pq_add_stable (a b : SimEvent) (q : List SimEvent)
    (hab : a.timestamp = b.timestamp) :
    ∃ l₁ l₂ l₃, pq_add b (pq_add a q) = l₁ ++ a :: (l₂ ++ b :: l₃) := by
  induction q with
  | nil =>
      refine ⟨[], [], [], ?_⟩
      simp [pq_add, hab]
  | cons x xs ih =>
      by_cases hx : a.timestamp < x.timestamp
      · refine ⟨[], [], x :: xs, ?_⟩
        have hbx : b.timestamp < x.timestamp := hab ▸ hx
        have hba : ¬ b.timestamp < a.timestamp := by rw [hab]; exact lt_irrefl _
        simp [pq_add, hx, hba, hbx]
      · obtain ⟨l₁, l₂, l₃, hl⟩ := ih
        refine ⟨x :: l₁, l₂, l₃, ?_⟩
        have hbx : ¬ b.timestamp < x.timestamp := hab ▸ hx
        simp [pq_add, hx, hbx, hl]

/-- C1 (spec-modelled: the PriorityQueue lives in container.py, absent from
src/): queues built by add calls are always sorted by timestamp, and this
invariant survives add and remove; remove returns a pending event whose
timestamp is minimal among all pending events; and adding A then B with
identical timestamps places A strictly before B in the queue, so A is removed
first (FIFO stability). -/
theorem pq_remove_min_stable (q : List SimEvent) (a b : SimEvent)
    (hq : PQSorted q) (hab : a.timestamp = b.timestamp) :
    (∀ es : List SimEvent, PQSorted (pq_from_list es))
    ∧ PQSorted (pq_add a q)
    ∧ (∀ hd rest, pq_remove q = some (hd, rest) →
        PQSorted rest ∧ hd ∈ q ∧ ∀ e ∈ q, hd.timestamp ≤ e.timestamp)
    ∧ (∃ l₁ l₂ l₃, pq_add b (pq_add a q) = l₁ ++ a :: (l₂ ++ b :: l₃)) := by
  refine ⟨pq_from_list_sorted, pq_add_sorted a q hq, ?_, pq_add_stable a b q hab⟩
  intro hd rest hr
  cases q with
  | nil => cases hr
  | cons x xs =>
      have hinj : (x, xs) = (hd, rest) := Option.some.inj hr
      obtain ⟨rfl, rfl⟩ : hd = x ∧ rest = xs :=
        ⟨(congrArg Prod.fst hinj).symm, (congrArg Prod.snd hinj).symm⟩
      rw [PQSorted, List.sorted_cons] at hq
      refine ⟨hq.2, List.mem_cons_self _ _, ?_⟩
      intro e he
      rcases List.mem_cons.mp he with rfl | he
      · exact le_refl _
      · exact hq.1 e he

/-- Witness for C1 at the two equal-timestamp driver requests of the test
suite: the earlier insertion sits before the later one. -/
theorem pq_remove_min_stable_witness :
    ∃ l₁ l₂ l₃, pq_add evB (pq_add evA []) = l₁ ++ evA :: (l₂ ++ evB :: l₃) :=
  (pq_remove_min_stable [] evA evB (by simp [PQSorted]) rfl).2.2.2

lemma closest_loop_cons (x : Driver) (xs : List Driver) (c0 : Driver)
    (origin : Location) :
    closest_loop (x :: xs) c0 origin =
      closest_loop xs
        (if x.is_idle = true
            ∧ get_travel_time x origin < get_travel_time c0 origin
         then x else c0) origin := rfl

lemma find_idle_split (ds : List Driver) (fa : Driver)
    (h : first_available ds = some fa) :
    fa.is_idle = true
    ∧ ∃ pre post, ds = pre ++ fa :: post ∧ ∀ e ∈ pre, e.is_idle = false := by
  induction ds with
  | nil => cases h
  | cons x xs ih =>
      by_cases hx : x.is_idle = true
      · have : first_available (x :: xs) = some x := by
          unfold first_available
          rw [List.find?_cons_of_pos _ hx]
        rw [this] at h
        obtain rfl : fa = x := (Option.some.inj h).symm
        exact ⟨hx, [], xs, rfl, by simp⟩
      · have : first_available (x :: xs) = first_available xs := by
          unfold first_available
          rw [List.find?_cons_of_neg _ hx]
        rw [this] at h
        obtain ⟨hidle, pre, post, hsplit, hpre⟩ := ih h
        refine ⟨hidle, x :: pre, post, by rw [hsplit]; rfl, ?_⟩
        intro e he
        rcases List.mem_cons.mp he with rfl | he
        · exact Bool.not_eq_true _ ▸ hx
        · exact hpre e he

lemma closest_loop_spec (origin : Location) :
    ∀ (ds : List Driver) (c0 : Driver),
      (closest_loop ds c0 origin = c0
        ∧ ∀ e ∈ ds, e.is_idle = true →
            get_travel_time c0 origin ≤ get_travel_time e origin)
      ∨ (∃ pre post, ds = pre ++ closest_loop ds c0 origin :: post
          ∧ (closest_loop ds c0 origin).is_idle = true
          ∧ get_travel_time (closest_loop ds c0 origin) origin
              < get_travel_time c0 origin
          ∧ (∀ e ∈ pre, e.is_idle = true →
              get_travel_time (closest_loop ds c0 origin) origin
                < get_travel_time e origin)
          ∧ ∀ e ∈ ds, e.is_idle = true →
              get_travel_time (closest_loop ds c0 origin) origin
                ≤ get_travel_time e origin) := by
  intro ds
  induction ds with
  | nil =>
      intro c0
      left
      exact ⟨rfl, by simp⟩
  | cons x xs ih =>
      intro c0
      by_cases hx : x.is_idle = true
          ∧ get_travel_time x origin < get_travel_time c0 origin
      · rw [closest_loop_cons, if_pos hx]
        rcases ih x with ⟨heq, hmin⟩ | ⟨pre, post, hsplit, hidle, hlt, hpre, hmin⟩
        · right
          rw [heq]
          refine ⟨[], xs, rfl, hx.1, hx.2, by simp, ?_⟩
          intro e he hei
          rcases List.mem_cons.mp he with rfl | he
          · exact le_refl _
          · exact hmin e he hei
        · right
          refine ⟨x :: pre, post,
                  by rw [List.cons_append]; exact congrArg (List.cons x) hsplit,
                  hidle, hlt.trans hx.2, ?_, ?_⟩
          · intro e he hei
            rcases List.mem_cons.mp he with rfl | he
            · exact hlt
            · exact hpre e he hei
          · intro e he hei
            rcases List.mem_cons.mp he with rfl | he
            · exact hlt.le
            · exact hmin e he hei
      · rw [closest_loop_cons, if_neg hx]
        have hxc : x.is_idle = true →
            get_travel_time c0 origin ≤ get_travel_time x origin := by
          intro hi
          by_contra hc
          exact hx ⟨hi, lt_of_not_le hc⟩
        rcases ih c0 with ⟨heq, hmin⟩ | ⟨pre, post, hsplit, hidle, hlt, hpre, hmin⟩
        · left
          refine ⟨heq, ?_⟩
          intro e he hei
          rcases List.mem_cons.mp he with rfl | he
          · exact hxc hei
          · exact hmin e he hei
        · right
          refine ⟨x :: pre, post,
                  by rw [List.cons_append]; exact congrArg (List.cons x) hsplit,
                  hidle, hlt, ?_, ?_⟩
          · intro e he hei
            rcases List.mem_cons.mp he with rfl | he
            · exact hlt.trans_le (hxc hei)
            · exact hpre e he hei
          · intro e he hei
            rcases List.mem_cons.mp he with rfl | he
            · exact (hlt.trans_le (hxc hei)).le
            · exact hmin e he hei

/-- C2: with no idle driver in the roster, request_driver appends the rider
to the waiting list exactly once and returns none; with an idle driver
present, it returns an idle driver of minimal travel time to the rider's
origin — the earliest-registered one when travel times tie, every idle
driver before it in the roster being strictly farther — and leaves the whole
dispatcher state, driver state and rider state unchanged. -/
theorem request_driver_correct (disp : Dispatcher) (r : Rider)
    (hs : ∀ d ∈ disp.driver_list, 0 < d.speed) :
    ((∀ d ∈ disp.driver_list, d.is_idle = false) →
      request_driver disp r =
        (none, { disp with waiting_list := disp.waiting_list ++ [r] }))
    ∧ (∀ d0 ∈ disp.driver_list, d0.is_idle = true →
        ∃ c, request_driver disp r = (some c, disp)
          ∧ c.is_idle = true
          ∧ (∀ e ∈ disp.driver_list, e.is_idle = true →
              get_travel_time c r.origin ≤ get_travel_time e r.origin)
          ∧ ∃ pre post, disp.driver_list = pre ++ c :: post
              ∧ ∀ e ∈ pre, e.is_idle = true →
                  get_travel_time c r.origin < get_travel_time e r.origin) := by
  constructor
  · intro h
    have hfa : first_available disp.driver_list = none := by
      unfold first_available
      rw [List.find?_eq_none]
      intro x hx
      simp [h x hx]
    unfold request_driver
    rw [hfa]
  · intro d0 hd0 hid
    have hfa : ∃ fa, first_available disp.driver_list = some fa := by
      cases hq : first_available disp.driver_list with
      | none =>
          exfalso
          have := List.find?_eq_none.mp hq d0 hd0
          simp [hid] at this
      | some fa => exact ⟨fa, rfl⟩
    obtain ⟨fa, hfa⟩ := hfa
    obtain ⟨hfai, pre0, post0, hsplit0, hpre0⟩ := find_idle_split _ fa hfa
    refine ⟨closest_loop disp.driver_list fa r.origin, ?_, ?_, ?_, ?_⟩
    · unfold request_driver
      rw [hfa]
    · rcases closest_loop_spec r.origin disp.driver_list fa with
        ⟨heq, _⟩ | ⟨_, _, _, hidle, _⟩
      · rw [heq]; exact hfai
      · exact hidle
    · rcases closest_loop_spec r.origin disp.driver_list fa with
        ⟨heq, hmin⟩ | ⟨_, _, _, _, _, _, hmin⟩
      · rw [heq]; exact hmin
      · exact hmin
    · rcases closest_loop_spec r.origin disp.driver_list fa with
        ⟨heq, hmin⟩ | ⟨pre, post, hsplit, _, _, hpre, _⟩
      · refine ⟨pre0, post0, by rw [heq]; exact hsplit0, ?_⟩
        intro e he hei
        have := hpre0 e he
        rw [hei] at this
        cases this
      · exact ⟨pre, post, hsplit, hpre⟩

/-- Witness for C2 on the doctest roster of two equidistant idle drivers,
where the earlier-registered bob2 wins the tie. -/
theorem request_driver_correct_witness :
    ∃ c, request_driver dispTie bobbyR = (some c, dispTie)
      ∧ c.is_idle = true
      ∧ (∀ e ∈ dispTie.driver_list, e.is_idle = true →
          get_travel_time c bobbyR.origin ≤ get_travel_time e bobbyR.origin)
      ∧ ∃ pre post, dispTie.driver_list = pre ++ c :: post
          ∧ ∀ e ∈ pre, e.is_idle = true →
              get_travel_time c bobbyR.origin < get_travel_time e bobbyR.origin :=
  (request_driver_correct dispTie bobbyR (by decide)).2
    ⟨"bob2", locO, 1, none, true⟩ (by decide) rfl

lemma request_driver_wl (disp : Dispatcher) (r : Rider) :
    (request_driver disp r).2.waiting_list = disp.waiting_list
    ∨ (request_driver disp r).2.waiting_list = disp.waiting_list ++ [r] := by
  unfold request_driver
  cases first_available disp.driver_list <;> simp

lemma wl_unique_step (disp : Dispatcher) (op : DOp) (h : WLUnique disp)
    (hg : opGuard disp op) : WLUnique (applyOp disp op) := by
  cases op with
  | reqDriver r =>
      unfold WLUnique applyOp
      rcases request_driver_wl disp r with hw | hw
      · rw [hw]; exact h
      · rw [hw, List.pairwise_append]
        refine ⟨h, by simp, ?_⟩
        intro a ha b hb
        have hb' : b = r := by simpa using hb
        subst hb'
        exact hg a ha
  | reqRider dr =>
      unfold WLUnique applyOp
      rw [request_rider_wl]
      exact h.sublist (List.tail_sublist _)
  | cancel r =>
      unfold WLUnique applyOp cancel_ride
      exact h.sublist (List.eraseP_sublist _)

lemma wl_unique_run :
    ∀ (ops : List DOp) (disp : Dispatcher), WLUnique disp →
      opsGuarded disp ops → WLUnique (runOps disp ops) := by
  intro ops
  induction ops with
  | nil => intro disp h _; simpa [runOps] using h
  | cons op rest ih =>
      intro disp h hg
      have h1 := wl_unique_step disp op h hg.1
      simpa [runOps] using ih (applyOp disp op) h1 hg.2

/-- C7 counterexample: two request_driver calls for the same rider against a
roster with no idle driver append the rider to the waiting list twice, so the
at-most-once invariant fails for unrestricted call sequences. -/
theorem waiting_list_dup_counterexample :
    ¬ WLUnique (runOps dispEmpty [DOp.reqDriver dupR, DOp.reqDriver dupR])
    ∧ (runOps dispEmpty
        [DOp.reqDriver dupR, DOp.reqDriver dupR]).waiting_list.countP
          (fun x => x.id == dupR.id) = 2 := by
  constructor
  · show ¬ List.Pairwise _ _
    decide
  · decide

/-- C7 amended: provided request_driver is never invoked for a rider whose id
is already on the waiting list — which the simulation guarantees, each rider
issuing a single request — every rider id appears in the waiting list at most
once across any sequence of the three dispatcher calls; moreover
request_driver only ever appends, request_rider removes exactly the front
rider it assigns, and cancel_ride removes exactly the first entry with the
cancelled rider's id. -/
theorem dispatcher_wl_invariant (disp : Dispatcher) (ops : List DOp)
    (h : WLUnique disp) (hg : opsGuarded disp ops) :
    WLUnique (runOps disp ops)
    ∧ (∀ r : Rider,
        (applyOp disp (DOp.reqDriver r)).waiting_list = disp.waiting_list
        ∨ (applyOp disp (DOp.reqDriver r)).waiting_list
            = disp.waiting_list ++ [r])
    ∧ (∀ dr : Driver,
        (applyOp disp (DOp.reqRider dr)).waiting_list = disp.waiting_list.tail
        ∧ (request_rider disp dr).1 = disp.waiting_list.head?)
    ∧ (∀ r : Rider, (applyOp disp (DOp.cancel r)).waiting_list
          = disp.waiting_list.eraseP (fun x => x.id == r.id)) := by
  refine ⟨wl_unique_run ops disp h hg, ?_, ?_, ?_⟩
  · intro r
    exact request_driver_wl disp r
  · intro dr
    exact ⟨request_rider_wl disp dr, request_rider_fst disp dr⟩
  · intro r
    rfl

/-- Witness for C7 on a concrete guarded two-call sequence. -/
theorem dispatcher_wl_invariant_witness :
    WLUnique (runOps dispEmpty [DOp.reqDriver dupR, DOp.reqRider bobD]) :=
  (dispatcher_wl_invariant dispEmpty [DOp.reqDriver dupR, DOp.reqRider bobD]
    (by show List.Pairwise _ _; decide)
    ⟨fun x hx => absurd hx (by simp [dispEmpty]), trivial, trivial⟩).1

lemma foldlM_ride_append (l l' : List Activity) (acc : RideAcc) :
    (l ++ l').foldlM ride_step acc =
      (l.foldlM ride_step acc).bind (fun x => l'.foldlM ride_step x) := by
  induction l generalizing acc with
  | nil => simp
  | cons a rest ih =>
      simp only [List.cons_append, List.foldlM_cons]
      cases h : ride_step acc a with
      | none => rfl
      | some acc2 => simp [ih]

lemma nested_eq_flat (logs : List (String × List Activity)) (acc : RideAcc) :
    logs.foldlM (fun a p => p.2.foldlM ride_step a) acc =
      ((logs.map Prod.snd).flatten).foldlM ride_step acc := by
  induction logs generalizing acc with
  | nil => simp
  | cons p rest ih =>
      simp only [List.map_cons, List.flatten_cons, List.foldlM_cons,
                 foldlM_ride_append]
      cases h : p.2.foldlM ride_step acc <;> simp [h, ih]

/-- C8 counterexample: in the log where driver A records only a PICKUP at
(0,0) and driver B only a DROPOFF at (5,5), the code pairs B's dropoff with
A's pickup — the remembered pickup location is never reset between drivers —
and reports 10.0, while the per-driver matching of the claim has no completed
pair and prescribes 0.0. -/
theorem ride_distance_cross_driver_counterexample :
    average_ride_distance logsCE = some 10
    ∧ claim_ride_distance logsCE = 0
    ∧ average_ride_distance logsCE ≠ some (claim_ride_distance logsCE) := by
  have h1 : average_ride_distance logsCE = some 10 := by
    simp [average_ride_distance, logsCE, ride_step, List.foldlM,
          manhattan_distance, locO]
  have h2 : claim_ride_distance logsCE = 0 := by
    simp [claim_ride_distance, logsCE, claim_driver_pairs, List.foldl]
  refine ⟨h1, h2, ?_⟩
  rw [h1, h2]
  intro hc
  exact absurd (Option.some.inj hc) (by norm_num)

/-- C8 amended: driver_ride_distance runs one scan over the concatenation of
the per-driver logs in roster order, pairing each DROPOFF with the most
recent PICKUP seen anywhere earlier in that concatenation (the remembered
pickup location carries across drivers), counting every DROPOFF as a
completed ride, failing when a DROPOFF precedes every PICKUP, and yielding
0.0 when no DROPOFF was counted. -/
theorem average_ride_distance_flat (logs : List (String × List Activity)) :
    average_ride_distance logs =
      (flat_ride_result ((logs.map Prod.snd).flatten)).map
        (fun acc => if acc.rides = 0 then 0
                    else (acc.total : ℚ) / (acc.rides : ℚ)) := by
  unfold average_ride_distance flat_ride_result
  rw [nested_eq_flat]
  cases ((logs.map Prod.snd).flatten).foldlM ride_step
      ({ pickupLoc := none, total := 0, rides := 0 } : RideAcc) with
  | none => rfl
  | some acc =>
      by_cases h : acc.rides = 0 <;> simp [h]

end RideShare
